import Mathlib

/-!
Shallow embedding of `msgpack.rpc.js` (MessagePack RPC client, v0.10).

The client is a closure over the mutable variables
`sock, stat, msgid, requests` (plus the `that` object carrying the public
methods).  We embed that mutable state as the record `ClientState` below and
each function of the source as a state transformer.  Asynchrony
(`setTimeout`) is embedded by recording scheduled tasks in a timer list;
an event-loop step (`Event.fire`) removes a timer and runs its task.
External stimuli (websocket open/close, inbound decoded frames, user calls)
are the further `Event` constructors; `step` is the one-step semantics and
`run` folds a whole event trace.

Modelling conventions:
* JavaScript values that the client can observe are `Val`.  The client only
  ever inspects whether a field is the number 1 or 2 (frame tag) and whether
  the id field is a number; every other decoded value (arrays, maps, floats,
  booleans, ...) is carried opaquely as `Val.vopaque n`.  `Val.vundef` is
  JavaScript `undefined` (absent), `Val.vnull` is `null`.
* Callbacks are identified by a `Nat` token; "the callback was invoked with
  result r" is recorded in the `invocations` trace.  Each registration of a
  pending request is stamped with a ghost serial number (`Pending.serial`,
  never read by any code path) so that "this particular call's callback"
  is expressible in specifications.
* `send` (lines 81-89 of the source) retries while `sock.bufferedAmount`
  is nonzero; we model the transport as never back-pressured
  (`bufferedAmount == 0`), so `send` appends its frame to the `sentFrames`
  trace directly.
* `recv_event` only forwards to the user's event callback and touches no
  client state; it is not modelled.  The notify branch of `recv_message`
  forwards `{method, params}` to the user's notify callback when one is
  registered; we record what would be forwarded in `notifyEvents`.
* `try_connect` constructs the WebSocket; construction is modelled as
  succeeding (the construction-failure path returns no client instance and
  is outside every claim).
-/

namespace MsgpackRpc

/-- A JavaScript value as far as the client inspects it: an integral number,
a string, `null`, `undefined`, or any other value carried opaquely. -/
inductive Val : Type where
  | vint : Int → Val
  | vstr : String → Val
  | vnull : Val
  | vundef : Val
  | vopaque : Nat → Val
deriving DecidableEq, Repr

/-- The `{error: ..., result: ...}` record handed to a response callback. -/
structure RpcResult : Type where
  error : Val
  result : Val
deriving DecidableEq, Repr

/-- An outbound wire frame, after packing: `[0, id, method, params]` for a
request (source line 98-99), `[2, method, params]` for a notify (112-113). -/
inductive Frame : Type where
  | request : Nat → String → Val → Frame
  | notifyF : String → Val → Frame
deriving DecidableEq, Repr

/-- The values of the `stat` variable (source: `'disconnected'`,
`'connecting'`, `'connected'`, `'disconnecting'`). -/
inductive Stat : Type where
  | disconnected
  | connecting
  | connected
  | disconnecting
deriving DecidableEq, Repr

/-- The `args` hash taken by `call_async` / `notify`.  `callback` is the
identity token of the supplied callback function (`none` when absent),
`timeout` is `args.timeout` (`none` when absent). -/
structure Args : Type where
  method : String
  params : Val
  callback : Option Nat := none
  timeout : Option Int := none
deriving DecidableEq, Repr

/-- One entry of the `requests` map: built as `requests[id] = {}` and then
optionally given `.callback` and `.tid` fields (source lines 93-106).
`serial` is a ghost registration stamp used only by specifications. -/
structure Pending : Type where
  serial : Nat
  callback : Option Nat := none
  tid : Option Nat := none
deriving DecidableEq, Repr

/-- The closure captured by a `setTimeout` in the source. -/
inductive Task : Type where
  | timeoutTask : Nat → Task
  | retryCall : Args → Task
  | retryNotify : Args → Task
  | resumeRetry : Task
deriving DecidableEq, Repr

/-- A scheduled `setTimeout`: its timer id, the delay in milliseconds it was
scheduled with, and the closure to run. -/
structure Timer : Type where
  tid : Nat
  delay : Nat
  task : Task
deriving DecidableEq, Repr

/-- A recorded invocation of a per-call response callback: the ghost serial
of the registration, the callback token, and the result record passed. -/
structure Invocation : Type where
  serial : Nat
  cb : Nat
  res : RpcResult
deriving DecidableEq, Repr

/-- The mutable state of one client closure, plus the observable traces
(`sentFrames`: data handed to `sock.send`; `invocations`: response-callback
invocations; `notifyEvents`: notify-callback deliveries; `closeCalls`:
number of `sock.close()` calls). -/
structure ClientState : Type where
  stat : Stat
  msgid : Int
  requests : List (Nat × Pending)
  timers : List Timer
  nextTid : Nat
  nextSerial : Nat
  sentFrames : List Frame
  invocations : List Invocation
  notifyEvents : List (Val × Val)
  closeCalls : Nat
deriving DecidableEq, Repr

/-- JavaScript array indexing `obj[i]`: `undefined` past the end. -/
def jsIndex (obj : List Val) (i : Nat) : Val :=
  obj.getD i Val.vundef

/-- `requests[id]` lookup.  JS object keys stringify the number, so a lookup
with id `i` hits exactly the entry whose (natural-number) key equals `i`. -/
def findReq (rs : List (Nat × Pending)) (i : Int) : Option Pending :=
  (rs.find? (fun kv => ((kv.1 : Int) == i))).map Prod.snd

/-- `requests[id] = p`: overwrite in place when the key exists, else append
(JS property-insertion order). -/
def setReq (rs : List (Nat × Pending)) (id : Nat) (p : Pending) :
    List (Nat × Pending) :=
  if rs.any (fun kv => kv.1 == id) then
    rs.map (fun kv => if kv.1 == id then (id, p) else kv)
  else
    rs ++ [(id, p)]

/-- `delete requests[id]`. -/
def eraseReq (rs : List (Nat × Pending)) (i : Int) : List (Nat × Pending) :=
  rs.filter (fun kv => !((kv.1 : Int) == i))

/-- `clearTimeout(t)`: removes the timer if it is still scheduled; a no-op
on `undefined` or an already-fired id. -/
def clearTimeout (ts : List Timer) : Option Nat → List Timer
  | none => ts
  | some t => ts.filter (fun tm => !(tm.tid == t))

/-- Source lines 75-80: `timeout_request(id)` — if the entry for `id` is
still present and has a callback, invoke it with
`{error: "timeout", result: null}` and delete the entry. -/
def timeout_request (s : ClientState) (id : Nat) : ClientState :=
  match findReq s.requests (id : Int) with
  | some p =>
    match p.callback with
    | some cb =>
      { s with
        invocations :=
          s.invocations ++ [⟨p.serial, cb, ⟨Val.vstr "timeout", Val.vnull⟩⟩],
        requests := eraseReq s.requests (id : Int) }
    | none => s
  | none => s

/-- Source lines 90-108: `send_request(id, args)` — create `requests[id]`,
attach the callback when one was supplied (in which case the timeout is
`args.timeout || 30000`), schedule the timeout timer when the timeout is
positive, pack `[0, id, method, params]` and send it. -/
def send_request (s : ClientState) (id : Nat) (args : Args) : ClientState :=
  let timeout : Int :=
    match args.callback with
    | some _ => match args.timeout with
                | some t => if t == 0 then 30000 else t
                | none => 30000
    | none => 0
  let frame : Frame := Frame.request id args.method args.params
  if timeout > 0 then
    { s with
      requests := setReq s.requests id
        ⟨s.nextSerial, args.callback, some s.nextTid⟩,
      timers := s.timers ++ [⟨s.nextTid, timeout.toNat, Task.timeoutTask id⟩],
      nextTid := s.nextTid + 1,
      nextSerial := s.nextSerial + 1,
      sentFrames := s.sentFrames ++ [frame] }
  else
    { s with
      requests := setReq s.requests id ⟨s.nextSerial, args.callback, none⟩,
      nextSerial := s.nextSerial + 1,
      sentFrames := s.sentFrames ++ [frame] }

/-- Source lines 109-117: `send_notify(args)` — pack `[2, method, params]`
and send it. -/
def send_notify (s : ClientState) (args : Args) : ClientState :=
  { s with sentFrames := s.sentFrames ++ [Frame.notifyF args.method args.params] }

/-- Source line 188: `msgid = (msgid == 0x0ffffffff) ? 0 : msgid + 1`. -/
def wrapId (m : Int) : Int :=
  if m == 0xffffffff then 0 else m + 1

/-- Source lines 187-198: `call_async(args)` — advance `msgid`; if still
connecting or the fresh id is occupied, reschedule the whole call in 10 ms;
else send the request when connected; else fall through (no action). -/
def call_async (s : ClientState) (args : Args) : ClientState :=
  let m : Int := wrapId s.msgid
  let s1 : ClientState := { s with msgid := m }
  if s1.stat == Stat.connecting || (findReq s1.requests m).isSome then
    { s1 with
      timers := s1.timers ++ [⟨s1.nextTid, 10, Task.retryCall args⟩],
      nextTid := s1.nextTid + 1 }
  else if s1.stat == Stat.connected then
    send_request s1 m.toNat args
  else
    s1

/-- Source lines 206-219: `notify(args)` — reschedule in 10 ms while
connecting, send while connected, otherwise do nothing. -/
def notify (s : ClientState) (args : Args) : ClientState :=
  match s.stat with
  | Stat.connecting =>
    { s with
      timers := s.timers ++ [⟨s.nextTid, 10, Task.retryNotify args⟩],
      nextTid := s.nextTid + 1 }
  | Stat.connected => send_notify s args
  | _ => s

/-- Source lines 154-173: `try_connect()` — set `stat = 'connecting'` and
construct the WebSocket (modelled as succeeding; its handlers are the
`sockOpen` / `sockClose` events below). -/
def try_connect (s : ClientState) : ClientState × Bool :=
  ({ s with stat := Stat.connecting }, true)

/-- Source lines 225-234: `resume()` — no-op when connecting/connected,
re-schedule itself in 1 ms while disconnecting, else `try_connect`. -/
def resume (s : ClientState) : ClientState × Bool :=
  if s.stat == Stat.connecting || s.stat == Stat.connected then
    (s, true)
  else if s.stat == Stat.disconnecting then
    ({ s with
        timers := s.timers ++ [⟨s.nextTid, 1, Task.resumeRetry⟩],
        nextTid := s.nextTid + 1 }, true)
  else
    try_connect s

/-- Source lines 239-247: `suspend()` — `stat = 'disconnecting'`; for each
pending entry `clearTimeout(requests[id].tid)` and delete it;
`sock.close()`; `msgid = -1`. -/
def suspend (s : ClientState) : ClientState :=
  { s with
    stat := Stat.disconnecting,
    timers := s.requests.foldl (fun ts kv => clearTimeout ts kv.2.tid) s.timers,
    requests := [],
    closeCalls := s.closeCalls + 1,
    msgid := -1 }

/-- Source line 252: `that.delete = that.suspend` — the alias the client
exposes for suspending. -/
def that_delete : ClientState → ClientState := suspend

/-- The property names assigned on the public `that` object by the source
(lines 187, 206, 225, 239, 252, 255, 256). -/
def thatProps : List String :=
  ["call_async", "notify", "resume", "suspend", "delete", "uri", "callbacks"]

/-- Source lines 126-147, body of the unpack loop of `recv_message` for one
decoded object `obj`: dispatch on `obj[0]`.  Tag 1 requires a numeric id,
then completes the matching pending request if it has a callback; tag 2
forwards `{method: obj[1], params: obj[2]}` to the notify callback; any
other tag is ignored. -/
def recv_frame (s : ClientState) (obj : List Val) : ClientState :=
  match jsIndex obj 0 with
  | Val.vint 1 =>
    match jsIndex obj 1 with
    | Val.vint i =>
      match findReq s.requests i with
      | some p =>
        match p.callback with
        | some cb =>
          { s with
            timers := clearTimeout s.timers p.tid,
            invocations :=
              s.invocations ++ [⟨p.serial, cb, ⟨jsIndex obj 2, jsIndex obj 3⟩⟩],
            requests := eraseReq s.requests i }
        | none => s
      | none => s
    | _ => s
  | Val.vint 2 =>
    { s with notifyEvents := s.notifyEvents ++ [(jsIndex obj 1, jsIndex obj 2)] }
  | _ => s

/-- One event-loop stimulus: a user API call, a websocket lifecycle event,
one decoded inbound object, or the firing of a scheduled timer. -/
inductive Event : Type where
  | callAsync : Args → Event
  | notifyOp : Args → Event
  | suspendOp : Event
  | resumeOp : Event
  | sockOpen : Event
  | sockClose : Event
  | recv : List Val → Event
  | fire : Nat → Event
deriving DecidableEq, Repr

/-- Run the closure captured by a fired timer. -/
def runTask (s : ClientState) : Task → ClientState
  | Task.timeoutTask id => timeout_request s id
  | Task.retryCall args => call_async s args
  | Task.retryNotify args => notify s args
  | Task.resumeRetry => (resume s).1

/-- Fire the scheduled timer `t` (if still scheduled): remove it from the
timer list, then run its task. -/
def fireTimer (s : ClientState) (t : Nat) : ClientState :=
  match s.timers.find? (fun tm => tm.tid == t) with
  | some tm =>
    runTask { s with timers := s.timers.filter (fun x => !(x.tid == t)) } tm.task
  | none => s

/-- The one-step semantics.  `sockOpen` is the `onopen` handler (line
162-165, sets `stat = 'connected'`); `sockClose` is the shared
`onclose`/`onerror` handler (line 166-170, sets `stat = 'disconnected'`). -/
def step (s : ClientState) : Event → ClientState
  | Event.callAsync args => call_async s args
  | Event.notifyOp args => notify s args
  | Event.suspendOp => suspend s
  | Event.resumeOp => (resume s).1
  | Event.sockOpen => { s with stat := Stat.connected }
  | Event.sockClose => { s with stat := Stat.disconnected }
  | Event.recv obj => recv_frame s obj
  | Event.fire t => fireTimer s t

/-- The state right after construction (lines 72-73 and 257: `stat` starts
`'disconnected'`, `msgid = -1`, empty `requests`, and the constructor
immediately runs `try_connect`, leaving `stat = 'connecting'`). -/
def initState : ClientState :=
  { stat := Stat.connecting, msgid := -1, requests := [], timers := [],
    nextTid := 0, nextSerial := 0, sentFrames := [], invocations := [],
    notifyEvents := [], closeCalls := 0 }

/-- Run a whole event trace. -/
def run (s : ClientState) (es : List Event) : ClientState :=
  es.foldl step s

/-- Ghost serials of the recorded callback invocations. -/
def invocSerials (s : ClientState) : List Nat :=
  s.invocations.map Invocation.serial

/-- Ghost serials of a request map's entries. -/
def serialsOf (rs : List (Nat × Pending)) : List Nat :=
  rs.map (fun kv => kv.2.serial)

/-- Keys of a request map. -/
def keysOf (rs : List (Nat × Pending)) : List Nat :=
  rs.map Prod.fst

/-- Ghost serials of the currently pending requests. -/
def pendingSerials (s : ClientState) : List Nat :=
  serialsOf s.requests

/-- The registry invariant maintained by every client operation: `msgid`
never drops below its initial value; pending keys are unique; ghost serials
of pending entries and of recorded invocations are unique, below the next
fresh serial, and no serial is simultaneously pending and already
invoked. -/
structure Inv (s : ClientState) : Prop where
  msgidGe : -1 ≤ s.msgid
  keysNodup : (keysOf s.requests).Nodup
  pendNodup : (serialsOf s.requests).Nodup
  pendLt : ∀ n ∈ serialsOf s.requests, n < s.nextSerial
  invLt : ∀ n ∈ invocSerials s, n < s.nextSerial
  invNodup : (invocSerials s).Nodup
  disj : ∀ n ∈ invocSerials s, n ∉ serialsOf s.requests

/-- A ghost serial that is spent: below the fresh-serial watermark but
neither pending nor ever invoked.  Serials of entries dropped by `suspend`
are spent, and spent serials stay spent forever. -/
def Dead (s : ClientState) (n : Nat) : Prop :=
  n < s.nextSerial ∧ n ∉ pendingSerials s ∧ n ∉ invocSerials s

/-- A concrete call with a callback and no timeout field. -/
def cbArgs : Args :=
  { method := "foo", params := Val.vopaque 0, callback := some 7 }

/-- A concrete fire-and-forget call: no callback. -/
def noCbArgs : Args :=
  { method := "foo", params := Val.vopaque 0 }

/-- Concrete state: connected, one pending call with callback 7 on id 0. -/
def sPend : ClientState :=
  run initState [Event.sockOpen, Event.callAsync cbArgs]

/-- Concrete state: connected, one callback-less pending entry on id 0. -/
def sNoCb : ClientState :=
  run initState [Event.sockOpen, Event.callAsync noCbArgs]

/-- Concrete state: the transport closed before ever opening. -/
def sDisc : ClientState :=
  run initState [Event.sockClose]

/-- Concrete state: connected with the id counter at its maximum. -/
def sWrap : ClientState :=
  { initState with stat := Stat.connected, msgid := 0xffffffff }

/-- Concrete state: connected while the next id to be allocated (0, since
`msgid = -1`) is still pending. -/
def sColl : ClientState :=
  { initState with
    stat := Stat.connected,
    requests := [(0, { serial := 0, callback := some 7, tid := none })],
    nextSerial := 1 }

end MsgpackRpc

namespace MsgpackRpc

theorem findReq_eq_none_iff (rs : List (Nat × Pending)) (i : Int) :
    findReq rs i = none ↔ ∀ kv ∈ rs, ¬ ((kv.1 : Int) = i) := by
  simp [findReq, List.find?_eq_none]

theorem findReq_some_elim (rs : List (Nat × Pending)) (i : Int) (p : Pending)
    (h : findReq rs i = some p) : ∃ k, (k, p) ∈ rs ∧ (k : Int) = i := by
  unfold findReq at h
  obtain ⟨kv, hfind, hsnd⟩ := Option.map_eq_some'.mp h
  refine ⟨kv.1, ?_, ?_⟩
  · have := List.mem_of_find?_eq_some hfind
    cases kv
    simp only at hsnd
    simpa [hsnd] using this
  · have := List.find?_some hfind
    simpa using this

theorem serial_mem_of_findReq (rs : List (Nat × Pending)) (i : Int) (p : Pending)
    (h : findReq rs i = some p) : p.serial ∈ serialsOf rs := by
  obtain ⟨k, hk, _⟩ := findReq_some_elim rs i p h
  exact List.mem_map.mpr ⟨(k, p), hk, rfl⟩

theorem serialsOf_eraseReq_sublist (rs : List (Nat × Pending)) (i : Int) :
    (serialsOf (eraseReq rs i)).Sublist (serialsOf rs) :=
  (List.filter_sublist rs).map _

theorem keysOf_eraseReq_sublist (rs : List (Nat × Pending)) (i : Int) :
    (keysOf (eraseReq rs i)).Sublist (keysOf rs) :=
  (List.filter_sublist rs).map _

theorem findReq_eraseReq (rs : List (Nat × Pending)) (i : Int) :
    findReq (eraseReq rs i) i = none := by
  rw [findReq_eq_none_iff]
  intro kv hkv
  have := List.of_mem_filter hkv
  simpa using this

theorem serial_not_mem_eraseReq (rs : List (Nat × Pending)) (i : Int) (p : Pending)
    (hnodup : (serialsOf rs).Nodup) (hf : findReq rs i = some p) :
    p.serial ∉ serialsOf (eraseReq rs i) := by
  intro hmem
  obtain ⟨k, hk, hki⟩ := findReq_some_elim rs i p hf
  obtain ⟨kv, hkv, hs⟩ := List.mem_map.mp hmem
  have hkvrs : kv ∈ rs := List.mem_of_mem_filter hkv
  have hkey : ¬ ((kv.1 : Int) = i) := by
    have := List.of_mem_filter hkv
    simpa using this
  have hkvkp : kv = (k, p) :=
    List.inj_on_of_nodup_map hnodup hkvrs hk hs
  rw [hkvkp] at hkey
  exact hkey hki

theorem wrapId_nonneg (m : Int) (h : -1 ≤ m) : 0 ≤ wrapId m := by
  unfold wrapId
  split
  · omega
  · omega

theorem wrapId_ne (m : Int) : wrapId m ≠ m := by
  unfold wrapId
  split
  next h => simp only [beq_iff_eq] at h; omega
  next h => omega

/-- Fields the invariant does not mention may change freely. -/
theorem inv_keep (s : ClientState) (st : Stat) (ts : List Timer) (nt : Nat)
    (sf : List Frame) (ne : List (Val × Val)) (cc : Nat) (h : Inv s) :
    Inv { s with stat := st, timers := ts, nextTid := nt, sentFrames := sf,
                 notifyEvents := ne, closeCalls := cc } :=
  ⟨h.msgidGe, h.keysNodup, h.pendNodup, h.pendLt, h.invLt, h.invNodup, h.disj⟩

theorem inv_set_msgid (s : ClientState) (m : Int) (ts : List Timer) (nt : Nat)
    (hm : -1 ≤ m) (h : Inv s) :
    Inv { s with msgid := m, timers := ts, nextTid := nt } :=
  ⟨hm, h.keysNodup, h.pendNodup, h.pendLt, h.invLt, h.invNodup, h.disj⟩

/-- Completing a pending request (by response or by timeout) preserves the
invariant: the invoked serial was pending and is removed together with its
entry. -/
theorem inv_complete (s : ClientState) (i : Int) (p : Pending) (cb : Nat)
    (r : RpcResult) (ts : List Timer)
    (hf : findReq s.requests i = some p) (h : Inv s) :
    Inv { s with
      timers := ts,
      invocations := s.invocations ++ [⟨p.serial, cb, r⟩],
      requests := eraseReq s.requests i } := by
  have hpmem : p.serial ∈ serialsOf s.requests := serial_mem_of_findReq _ _ _ hf
  have hsub := serialsOf_eraseReq_sublist s.requests i
  have hnewInv :
      invocSerials { s with
        timers := ts,
        invocations := s.invocations ++ [⟨p.serial, cb, r⟩],
        requests := eraseReq s.requests i } = invocSerials s ++ [p.serial] := by
    simp [invocSerials]
  constructor
  · exact h.msgidGe
  · exact (keysOf_eraseReq_sublist s.requests i).nodup h.keysNodup
  · exact hsub.nodup h.pendNodup
  · intro n hn
    exact h.pendLt n (hsub.subset hn)
  · intro n hn
    rw [hnewInv] at hn
    rcases List.mem_append.mp hn with h1 | h1
    · exact h.invLt n h1
    · simp only [List.mem_singleton] at h1
      subst h1
      exact h.pendLt _ hpmem
  · rw [hnewInv]
    rw [List.nodup_append]
    refine ⟨h.invNodup, List.nodup_singleton _, ?_⟩
    intro n hn hn1
    simp only [List.mem_singleton] at hn1
    subst hn1
    exact h.disj _ hn hpmem
  · intro n hn
    rw [hnewInv] at hn
    rcases List.mem_append.mp hn with h1 | h1
    · intro hmem
      exact h.disj n h1 (hsub.subset hmem)
    · simp only [List.mem_singleton] at h1
      subst h1
      exact serial_not_mem_eraseReq s.requests i p h.pendNodup hf

theorem inv_timeout_request (s : ClientState) (id : Nat) (h : Inv s) :
    Inv (timeout_request s id) := by
  rcases hf : findReq s.requests (id : Int) with _ | p
  · simp only [timeout_request, hf]
    exact h
  · rcases hcb : p.callback with _ | cb
    · simp only [timeout_request, hf, hcb]
      exact h
    · simp only [timeout_request, hf, hcb]
      exact inv_complete s (id : Int) p cb _ s.timers hf h

theorem inv_recv_frame (s : ClientState) (obj : List Val) (h : Inv s) :
    Inv (recv_frame s obj) := by
  unfold recv_frame
  split
  · split
    · rename_i i _
      rcases hf : findReq s.requests i with _ | p
      · simp only [hf]
        exact h
      · rcases hcb : p.callback with _ | cb
        · simp only [hf, hcb]
          exact h
        · simp only [hf, hcb]
          exact inv_complete s i p cb _ _ hf h
    · exact h
  · exact inv_keep s _ _ _ _ _ _ h
  · exact h

/-- Appending a fresh entry stamped with the fresh serial (what
`send_request` does on a not-yet-used id) preserves the invariant. -/
theorem inv_insert_fresh (s s' : ClientState) (id : Nat) (p : Pending)
    (hfree : findReq s.requests (id : Int) = none) (h : Inv s)
    (hps : p.serial = s.nextSerial)
    (hr : s'.requests = setReq s.requests id p)
    (hi : s'.invocations = s.invocations)
    (hns : s'.nextSerial = s.nextSerial + 1)
    (hm : s'.msgid = s.msgid) : Inv s' := by
  have hkey : ∀ kv ∈ s.requests, kv.1 ≠ id := by
    intro kv hkv hkeq
    exact (findReq_eq_none_iff _ _).mp hfree kv hkv (by exact_mod_cast hkeq)
  have hset : setReq s.requests id p = s.requests ++ [(id, p)] := by
    unfold setReq
    have hany : s.requests.any (fun kv => kv.1 == id) = false := by
      rw [List.any_eq_false]
      intro kv hkv
      simpa using hkey kv hkv
    rw [hany]
    simp
  have hserials : serialsOf s'.requests = serialsOf s.requests ++ [p.serial] := by
    rw [hr, hset]
    simp [serialsOf]
  have hkeys : keysOf s'.requests = keysOf s.requests ++ [id] := by
    rw [hr, hset]
    simp [keysOf]
  have hinvoc : invocSerials s' = invocSerials s := by
    simp [invocSerials, hi]
  constructor
  · rw [hm]
    exact h.msgidGe
  · rw [hkeys, List.nodup_append]
    refine ⟨h.keysNodup, List.nodup_singleton _, ?_⟩
    intro k hk hk1
    simp only [List.mem_singleton] at hk1
    subst hk1
    obtain ⟨kv, hkv, hkv1⟩ := List.mem_map.mp hk
    exact hkey kv hkv hkv1
  · rw [hserials, List.nodup_append]
    refine ⟨h.pendNodup, List.nodup_singleton _, ?_⟩
    intro n hn hn1
    simp only [List.mem_singleton] at hn1
    subst hn1
    have := h.pendLt _ hn
    omega
  · intro n hn
    rw [hserials] at hn
    rw [hns]
    rcases List.mem_append.mp hn with h1 | h1
    · have := h.pendLt n h1
      omega
    · simp only [List.mem_singleton] at h1
      omega
  · intro n hn
    rw [hinvoc] at hn
    rw [hns]
    have := h.invLt n hn
    omega
  · rw [hinvoc]
    exact h.invNodup
  · intro n hn
    rw [hinvoc] at hn
    rw [hserials]
    intro hmem
    rcases List.mem_append.mp hmem with h1 | h1
    · exact h.disj n hn h1
    · simp only [List.mem_singleton] at h1
      have := h.invLt n hn
      omega

/-- `send_request` with a not-yet-used id preserves the invariant. -/
theorem inv_send_request (s : ClientState) (id : Nat) (args : Args)
    (hfree : findReq s.requests (id : Int) = none) (h : Inv s) :
    Inv (send_request s id args) := by
  unfold send_request
  dsimp only
  split
  · exact inv_insert_fresh s _ id _ hfree h rfl rfl rfl rfl rfl
  · exact inv_insert_fresh s _ id _ hfree h rfl rfl rfl rfl rfl

theorem inv_call_async (s : ClientState) (args : Args) (h : Inv s) :
    Inv (call_async s args) := by
  have hm : -1 ≤ wrapId s.msgid := by
    have := wrapId_nonneg s.msgid h.msgidGe
    omega
  unfold call_async
  dsimp only
  split
  · exact inv_set_msgid s _ _ _ hm h
  · next hguard =>
    split
    · have hfree : findReq s.requests (wrapId s.msgid) = none := by
        simp only [Bool.or_eq_true, not_or] at hguard
        rcases hguard with ⟨_, h2⟩
        simpa [Option.not_isSome_iff_eq_none] using h2
      refine inv_send_request _ _ args ?_ (inv_set_msgid s _ s.timers s.nextTid hm h)
      show findReq s.requests (((wrapId s.msgid).toNat : Nat) : Int) = none
      rw [Int.toNat_of_nonneg (wrapId_nonneg s.msgid h.msgidGe)]
      exact hfree
    · exact inv_set_msgid s _ s.timers s.nextTid hm h

theorem inv_notify (s : ClientState) (args : Args) (h : Inv s) :
    Inv (notify s args) := by
  unfold notify
  split
  · exact inv_keep s _ _ _ _ _ _ h
  · exact inv_keep s _ _ _ _ _ _ h
  · exact h

theorem inv_suspend (s : ClientState) (h : Inv s) : Inv (suspend s) := by
  unfold suspend
  refine ⟨le_refl (-1), List.nodup_nil, List.nodup_nil, ?_, h.invLt, h.invNodup, ?_⟩
  · intro n hn
    exact absurd hn (List.not_mem_nil n)
  · intro n _ hmem
    exact absurd hmem (List.not_mem_nil n)

theorem inv_resume (s : ClientState) (h : Inv s) : Inv ((resume s).1) := by
  unfold resume try_connect
  split
  · exact h
  · split
    · exact inv_keep s _ _ _ _ _ _ h
    · exact inv_keep s _ _ _ _ _ _ h

theorem inv_runTask (s : ClientState) (t : Task) (h : Inv s) :
    Inv (runTask s t) := by
  cases t with
  | timeoutTask id => exact inv_timeout_request s id h
  | retryCall args => exact inv_call_async s args h
  | retryNotify args => exact inv_notify s args h
  | resumeRetry => exact inv_resume s h

theorem inv_fireTimer (s : ClientState) (t : Nat) (h : Inv s) :
    Inv (fireTimer s t) := by
  unfold fireTimer
  split
  · exact inv_runTask _ _ (inv_keep s _ _ _ _ _ _ h)
  · exact h

theorem inv_step (s : ClientState) (e : Event) (h : Inv s) : Inv (step s e) := by
  cases e with
  | callAsync args => exact inv_call_async s args h
  | notifyOp args => exact inv_notify s args h
  | suspendOp => exact inv_suspend s h
  | resumeOp => exact inv_resume s h
  | sockOpen => exact inv_keep s _ _ _ _ _ _ h
  | sockClose => exact inv_keep s _ _ _ _ _ _ h
  | recv obj => exact inv_recv_frame s obj h
  | fire t => exact inv_fireTimer s t h

theorem inv_initState : Inv initState :=
  ⟨le_refl _, List.nodup_nil, List.nodup_nil,
   fun n hn => absurd hn (List.not_mem_nil n),
   fun n hn => absurd hn (List.not_mem_nil n),
   List.nodup_nil,
   fun n hn => absurd hn (List.not_mem_nil n)⟩

theorem inv_run (s : ClientState) (es : List Event) (h : Inv s) :
    Inv (run s es) := by
  induction es generalizing s with
  | nil => exact h
  | cons e t ih => exact ih (step s e) (inv_step s e h)

theorem serialsOf_setReq_mem (rs : List (Nat × Pending)) (id : Nat) (p : Pending)
    (n : Nat) (hn : n ∈ serialsOf (setReq rs id p)) :
    n ∈ serialsOf rs ∨ n = p.serial := by
  unfold setReq at hn
  split at hn
  · rcases List.mem_map.mp hn with ⟨kv, hkv, hs⟩
    rcases List.mem_map.mp hkv with ⟨kv0, hkv0, hf⟩
    by_cases hk : (kv0.1 == id) = true
    · rw [if_pos hk] at hf
      right
      rw [← hs, ← hf]
    · rw [if_neg hk] at hf
      left
      exact List.mem_map.mpr ⟨kv0, hkv0, by rw [hf, hs]⟩
  · have : serialsOf (rs ++ [(id, p)]) = serialsOf rs ++ [p.serial] := by
      simp [serialsOf]
    rw [this] at hn
    rcases List.mem_append.mp hn with h1 | h1
    · exact Or.inl h1
    · exact Or.inr (by simpa using h1)

theorem dead_send_request (s : ClientState) (id : Nat) (args : Args) (n : Nat)
    (hd : Dead s n) : Dead (send_request s id args) n := by
  obtain ⟨h1, h2, h3⟩ := hd
  unfold send_request
  dsimp only
  split
  · refine ⟨?_, ?_, h3⟩
    · show n < s.nextSerial + 1
      omega
    · intro hmem
      have hmem' : n ∈ serialsOf
          (setReq s.requests id ⟨s.nextSerial, args.callback, some s.nextTid⟩) := hmem
      rcases serialsOf_setReq_mem _ _ _ _ hmem' with hx | hx
      · exact h2 hx
      · have hx' : n = s.nextSerial := hx
        omega
  · refine ⟨?_, ?_, h3⟩
    · show n < s.nextSerial + 1
      omega
    · intro hmem
      have hmem' : n ∈ serialsOf
          (setReq s.requests id ⟨s.nextSerial, args.callback, none⟩) := hmem
      rcases serialsOf_setReq_mem _ _ _ _ hmem' with hx | hx
      · exact h2 hx
      · have hx' : n = s.nextSerial := hx
        omega

theorem dead_call_async (s : ClientState) (args : Args) (n : Nat)
    (hd : Dead s n) : Dead (call_async s args) n := by
  unfold call_async
  dsimp only
  split
  · exact hd
  · split
    · exact dead_send_request _ _ args n hd
    · exact hd

theorem dead_notify (s : ClientState) (args : Args) (n : Nat)
    (hd : Dead s n) : Dead (notify s args) n := by
  unfold notify
  split
  · exact hd
  · exact hd
  · exact hd

theorem dead_complete (s : ClientState) (i : Int) (p : Pending) (cb : Nat)
    (r : RpcResult) (ts : List Timer)
    (hf : findReq s.requests i = some p) (hd : Dead s n) :
    Dead { s with
      timers := ts,
      invocations := s.invocations ++ [⟨p.serial, cb, r⟩],
      requests := eraseReq s.requests i } n := by
  obtain ⟨h1, h2, h3⟩ := hd
  have hpmem : p.serial ∈ serialsOf s.requests := serial_mem_of_findReq _ _ _ hf
  refine ⟨h1, ?_, ?_⟩
  · intro hmem
    exact h2 ((serialsOf_eraseReq_sublist s.requests i).subset hmem)
  · intro hmem
    have : n ∈ invocSerials s ++ [p.serial] := by
      simpa [invocSerials, pendingSerials] using hmem
    rcases List.mem_append.mp this with hx | hx
    · exact h3 hx
    · simp only [List.mem_singleton] at hx
      subst hx
      exact h2 hpmem

theorem dead_timeout_request (s : ClientState) (id : Nat) (n : Nat)
    (hd : Dead s n) : Dead (timeout_request s id) n := by
  rcases hf : findReq s.requests (id : Int) with _ | p
  · simp only [timeout_request, hf]
    exact hd
  · rcases hcb : p.callback with _ | cb
    · simp only [timeout_request, hf, hcb]
      exact hd
    · simp only [timeout_request, hf, hcb]
      exact dead_complete s (id : Int) p cb _ s.timers hf hd

theorem dead_recv_frame (s : ClientState) (obj : List Val) (n : Nat)
    (hd : Dead s n) : Dead (recv_frame s obj) n := by
  unfold recv_frame
  split
  · split
    · rename_i i _
      rcases hf : findReq s.requests i with _ | p
      · simp only [hf]
        exact hd
      · rcases hcb : p.callback with _ | cb
        · simp only [hf, hcb]
          exact hd
        · simp only [hf, hcb]
          exact dead_complete s i p cb _ _ hf hd
    · exact hd
  · exact hd
  · exact hd

theorem dead_suspend (s : ClientState) (n : Nat) (hd : Dead s n) :
    Dead (suspend s) n := by
  obtain ⟨h1, _, h3⟩ := hd
  exact ⟨h1, fun hmem => absurd hmem (List.not_mem_nil n), h3⟩

theorem dead_resume (s : ClientState) (n : Nat) (hd : Dead s n) :
    Dead ((resume s).1) n := by
  unfold resume try_connect
  split
  · exact hd
  · split
    · exact hd
    · exact hd

theorem dead_step (s : ClientState) (e : Event) (n : Nat) (hd : Dead s n) :
    Dead (step s e) n := by
  cases e with
  | callAsync args => exact dead_call_async s args n hd
  | notifyOp args => exact dead_notify s args n hd
  | suspendOp => exact dead_suspend s n hd
  | resumeOp => exact dead_resume s n hd
  | sockOpen => exact hd
  | sockClose => exact hd
  | recv obj => exact dead_recv_frame s obj n hd
  | fire t =>
    show Dead (fireTimer s t) n
    unfold fireTimer
    split
    · rename_i tm _
      cases tm.task with
      | timeoutTask id => exact dead_timeout_request _ id n hd
      | retryCall args => exact dead_call_async _ args n hd
      | retryNotify args => exact dead_notify _ args n hd
      | resumeRetry => exact dead_resume _ n hd
    · exact hd

theorem dead_run (s : ClientState) (es : List Event) (n : Nat) (hd : Dead s n) :
    Dead (run s es) n := by
  induction es generalizing s with
  | nil => exact hd
  | cons e t ih => exact ih (step s e) (dead_step s e n hd)

theorem send_request_msgid (s : ClientState) (id : Nat) (args : Args) :
    (send_request s id args).msgid = s.msgid := by
  unfold send_request
  dsimp only
  split
  · rfl
  · rfl

theorem call_async_msgid (s : ClientState) (args : Args) :
    (call_async s args).msgid = wrapId s.msgid := by
  unfold call_async
  dsimp only
  split
  · rfl
  · split
    · exact send_request_msgid _ _ args
    · rfl

theorem send_request_sentFrames (s : ClientState) (id : Nat) (args : Args) :
    (send_request s id args).sentFrames
      = s.sentFrames ++ [Frame.request id args.method args.params] := by
  unfold send_request
  dsimp only
  split
  · rfl
  · rfl

/-- When the connection is still being set up or the fresh id is occupied,
`call_async` only advances `msgid` and schedules a 10 ms retry of itself. -/
theorem call_async_defer (s : ClientState) (args : Args)
    (h : s.stat = Stat.connecting ∨ (findReq s.requests (wrapId s.msgid)).isSome) :
    call_async s args =
      { s with msgid := wrapId s.msgid,
               timers := s.timers ++ [⟨s.nextTid, 10, Task.retryCall args⟩],
               nextTid := s.nextTid + 1 } := by
  unfold call_async
  dsimp only
  rw [if_pos]
  rcases h with h | h
  · simp [h]
  · simp [h]

/-- A `call_async` that is neither deferrable nor connected falls through:
only `msgid` changes. -/
theorem call_async_drop (s : ClientState) (args : Args)
    (hstat : s.stat = Stat.disconnected ∨ s.stat = Stat.disconnecting)
    (hfree : findReq s.requests (wrapId s.msgid) = none) :
    call_async s args = { s with msgid := wrapId s.msgid } := by
  unfold call_async
  dsimp only
  rw [if_neg, if_neg]
  · rcases hstat with h | h <;> simp [h]
  · simp only [Bool.or_eq_true, not_or]
    constructor
    · rcases hstat with h | h <;> simp [h]
    · simp [hfree]

theorem notify_connecting (s : ClientState) (args : Args)
    (h : s.stat = Stat.connecting) :
    notify s args =
      { s with timers := s.timers ++ [⟨s.nextTid, 10, Task.retryNotify args⟩],
               nextTid := s.nextTid + 1 } := by
  unfold notify
  rw [h]

theorem notify_connected (s : ClientState) (args : Args)
    (h : s.stat = Stat.connected) :
    notify s args = send_notify s args := by
  unfold notify
  rw [h]

theorem notify_drop (s : ClientState) (args : Args)
    (h : s.stat = Stat.disconnected ∨ s.stat = Stat.disconnecting) :
    notify s args = s := by
  unfold notify
  rcases h with h | h <;> rw [h]

theorem call_async_sentFrames_of_ne (s : ClientState) (args : Args)
    (h : s.stat ≠ Stat.connected) :
    (call_async s args).sentFrames = s.sentFrames := by
  unfold call_async
  dsimp only
  split
  · rfl
  · split
    · rename_i hconn
      exact absurd (by simpa using hconn) h
    · rfl

theorem notify_sentFrames_of_ne (s : ClientState) (args : Args)
    (h : s.stat ≠ Stat.connected) :
    (notify s args).sentFrames = s.sentFrames := by
  unfold notify
  split
  · rfl
  · rename_i hconn
    exact absurd hconn h
  · rfl

theorem timeout_request_sentFrames (s : ClientState) (id : Nat) :
    (timeout_request s id).sentFrames = s.sentFrames := by
  rcases hf : findReq s.requests (id : Int) with _ | p
  · simp only [timeout_request, hf]
  · rcases hcb : p.callback with _ | cb <;> simp only [timeout_request, hf, hcb]

theorem recv_frame_sentFrames (s : ClientState) (obj : List Val) :
    (recv_frame s obj).sentFrames = s.sentFrames := by
  unfold recv_frame
  split
  · split
    · rename_i i _
      rcases hf : findReq s.requests i with _ | p
      · simp only [hf]
      · rcases hcb : p.callback with _ | cb <;> simp only [hf, hcb]
    · rfl
  · rfl
  · rfl

theorem resume_sentFrames (s : ClientState) :
    ((resume s).1).sentFrames = s.sentFrames := by
  unfold resume try_connect
  split
  · rfl
  · split
    · rfl
    · rfl

theorem step_sentFrames_of_ne (s : ClientState) (e : Event)
    (h : s.stat ≠ Stat.connected) :
    (step s e).sentFrames = s.sentFrames := by
  cases e with
  | callAsync args => exact call_async_sentFrames_of_ne s args h
  | notifyOp args => exact notify_sentFrames_of_ne s args h
  | suspendOp => rfl
  | resumeOp => exact resume_sentFrames s
  | sockOpen => rfl
  | sockClose => rfl
  | recv obj => exact recv_frame_sentFrames s obj
  | fire t =>
    show (fireTimer s t).sentFrames = s.sentFrames
    unfold fireTimer
    split
    · rename_i tm _
      cases tm.task with
      | timeoutTask id => exact timeout_request_sentFrames _ id
      | retryCall args => exact call_async_sentFrames_of_ne _ args h
      | retryNotify args => exact notify_sentFrames_of_ne _ args h
      | resumeRetry => exact resume_sentFrames _
    · rfl

theorem setReq_of_free (rs : List (Nat × Pending)) (id : Nat) (p : Pending)
    (hfree : findReq rs (id : Int) = none) :
    setReq rs id p = rs ++ [(id, p)] := by
  unfold setReq
  have hany : rs.any (fun kv => kv.1 == id) = false := by
    rw [List.any_eq_false]
    intro kv hkv
    by_contra hk
    simp only [Bool.not_eq_false, beq_iff_eq] at hk
    exact (findReq_eq_none_iff _ _).mp hfree kv hkv (by exact_mod_cast hk)
  rw [hany]
  simp

theorem findReq_append_singleton (rs : List (Nat × Pending)) (id : Nat) (p : Pending)
    (hfree : findReq rs (id : Int) = none) :
    findReq (rs ++ [(id, p)]) (id : Int) = some p := by
  induction rs with
  | nil => simp [findReq, List.find?]
  | cons kv t ih =>
    have hkv : ¬ ((kv.1 : Int) = (id : Int)) :=
      (findReq_eq_none_iff _ _).mp hfree kv (List.mem_cons_self kv t)
    have ht : findReq t (id : Int) = none := by
      rw [findReq_eq_none_iff]
      intro kv2 hkv2
      exact (findReq_eq_none_iff _ _).mp hfree kv2 (List.mem_cons_of_mem kv hkv2)
    have hpred : ((kv.1 : Int) == (id : Int)) = false := by
      simpa using hkv
    show findReq (kv :: (t ++ [(id, p)])) (id : Int) = some p
    unfold findReq
    rw [List.find?_cons_of_neg _ (by simp [hpred])]
    exact ih ht

theorem findReq_setReq_of_free (rs : List (Nat × Pending)) (id : Nat) (p : Pending)
    (hfree : findReq rs (id : Int) = none) :
    findReq (setReq rs id p) (id : Int) = some p := by
  rw [setReq_of_free rs id p hfree]
  exact findReq_append_singleton rs id p hfree

/-- Timers of entries swept by the `suspend` loop are gone: anything left in
the timer list after the fold survives every `clearTimeout` of the loop. -/
theorem mem_foldl_clearTimeout (rs : List (Nat × Pending)) (ts : List Timer)
    (tm : Timer)
    (hmem : tm ∈ rs.foldl (fun acc kv => clearTimeout acc kv.2.tid) ts) :
    tm ∈ ts ∧ ∀ kv ∈ rs, kv.2.tid ≠ some tm.tid := by
  induction rs generalizing ts with
  | nil =>
    refine ⟨hmem, ?_⟩
    intro kv hkv
    exact absurd hkv (List.not_mem_nil kv)
  | cons kv0 t ih =>
    have hstep := ih (clearTimeout ts kv0.2.tid) hmem
    have hts : tm ∈ clearTimeout ts kv0.2.tid := hstep.1
    have hkv0 : kv0.2.tid ≠ some tm.tid := by
      rcases htid : kv0.2.tid with _ | t0
      · exact Option.noConfusion
      · rw [htid] at hts
        unfold clearTimeout at hts
        have := List.of_mem_filter hts
        simp only [Bool.not_eq_true', beq_eq_false_iff_ne, ne_eq] at this
        intro hc
        exact this (Option.some.inj hc).symm
    have hts' : tm ∈ ts := by
      rcases htid : kv0.2.tid with _ | t0
      · rw [htid] at hts
        exact hts
      · rw [htid] at hts
        exact List.mem_of_mem_filter hts
    refine ⟨hts', ?_⟩
    intro kv hkv
    rcases List.mem_cons.mp hkv with h1 | h1
    · rw [h1]
      exact hkv0
    · exact hstep.2 kv h1

theorem resume_msgid (s : ClientState) : ((resume s).1).msgid = s.msgid := by
  unfold resume try_connect
  split
  · rfl
  · split
    · rfl
    · rfl

/-- A decoded object whose tag field is neither 1 nor 2 is discarded. -/
theorem recv_frame_bad_tag (s : ClientState) (obj : List Val)
    (h1 : jsIndex obj 0 ≠ Val.vint 1) (h2 : jsIndex obj 0 ≠ Val.vint 2) :
    recv_frame s obj = s := by
  unfold recv_frame
  split
  · rename_i heq
    exact absurd heq h1
  · rename_i heq
    exact absurd heq h2
  · rfl

/-- A response object whose id field is not a number is discarded. -/
theorem recv_frame_nonnum_id (s : ClientState) (obj : List Val)
    (h0 : jsIndex obj 0 = Val.vint 1)
    (h1 : ∀ k : Int, jsIndex obj 1 ≠ Val.vint k) :
    recv_frame s obj = s := by
  unfold recv_frame
  split
  · split
    · rename_i k hk
      exact absurd hk (h1 k)
    · rfl
  · rename_i heq
    rw [h0] at heq
    exact absurd heq (by simp)
  · rfl

/-- A response whose id has no pending entry is discarded. -/
theorem recv_frame_resp_none (s : ClientState) (obj : List Val) (i : Int)
    (h0 : jsIndex obj 0 = Val.vint 1) (h1 : jsIndex obj 1 = Val.vint i)
    (hf : findReq s.requests i = none) :
    recv_frame s obj = s := by
  unfold recv_frame
  split
  · split
    · rename_i i2 h1'
      have : i2 = i := by
        rw [h1] at h1'
        exact (Val.vint.injEq _ _).mp h1'.symm
      subst this
      rw [hf]
    · rfl
  · rename_i heq
    rw [h0] at heq
    exact absurd heq (by simp)
  · rfl

/-- A response whose pending entry has no callback (fire-and-forget call)
leaves the state entirely unchanged: the entry is not even removed. -/
theorem recv_frame_resp_no_callback (s : ClientState) (obj : List Val) (i : Int)
    (p : Pending)
    (h0 : jsIndex obj 0 = Val.vint 1) (h1 : jsIndex obj 1 = Val.vint i)
    (hf : findReq s.requests i = some p) (hcb : p.callback = none) :
    recv_frame s obj = s := by
  unfold recv_frame
  split
  · split
    · rename_i i2 h1'
      have : i2 = i := by
        rw [h1] at h1'
        exact (Val.vint.injEq _ _).mp h1'.symm
      subst this
      simp only [hf, hcb]
    · rfl
  · rename_i heq
    rw [h0] at heq
    exact absurd heq (by simp)
  · rfl

/-- A response whose pending entry has a callback completes it: the timer
is cleared, the callback is invoked with `{error: obj[2], result: obj[3]}`
and the entry is deleted. -/
theorem recv_frame_resp_callback (s : ClientState) (obj : List Val) (i : Int)
    (p : Pending) (cb : Nat)
    (h0 : jsIndex obj 0 = Val.vint 1) (h1 : jsIndex obj 1 = Val.vint i)
    (hf : findReq s.requests i = some p) (hcb : p.callback = some cb) :
    recv_frame s obj =
      { s with
        timers := clearTimeout s.timers p.tid,
        invocations :=
          s.invocations ++ [⟨p.serial, cb, ⟨jsIndex obj 2, jsIndex obj 3⟩⟩],
        requests := eraseReq s.requests i } := by
  unfold recv_frame
  split
  · split
    · rename_i i2 h1'
      have : i2 = i := by
        rw [h1] at h1'
        exact (Val.vint.injEq _ _).mp h1'.symm
      subst this
      simp only [hf, hcb]
    · rename_i hne
      exact absurd h1 (hne i)
  · rename_i heq
    rw [h0] at heq
    exact absurd heq (by simp)
  · rename_i hne _
    exact absurd h0 hne

/-- Reduction of `timeout_request` when the entry is present with a
callback. -/
theorem timeout_request_eq (s : ClientState) (id : Nat) (p : Pending) (cb : Nat)
    (hf : findReq s.requests (id : Int) = some p) (hcb : p.callback = some cb) :
    timeout_request s id =
      { s with
        invocations :=
          s.invocations ++ [⟨p.serial, cb, ⟨Val.vstr "timeout", Val.vnull⟩⟩],
        requests := eraseReq s.requests (id : Int) } := by
  simp only [timeout_request, hf, hcb]

/-- With a callback and no `timeout` argument the scheduled delay is the
default 30000 ms. -/
theorem send_request_default_timer (s : ClientState) (id : Nat) (args : Args)
    (c : Nat) (hc : args.callback = some c) (ht : args.timeout = none) :
    (send_request s id args).timers =
      s.timers ++ [⟨s.nextTid, 30000, Task.timeoutTask id⟩] := by
  unfold send_request
  rw [hc, ht]
  dsimp only
  rw [if_pos (by norm_num : (30000 : Int) > 0)]
  rfl

end MsgpackRpc

namespace MsgpackRpc

/-- Claim C1, counterexample: with the default timeout, firing the timeout
timer invokes the callback with result `null` — not with the result field
absent (`undefined`) as the claim states. -/
theorem timeout_result_null_cex :
    (run initState [Event.sockOpen, Event.callAsync cbArgs, Event.fire 0]).invocations =
      [⟨0, 7, ⟨Val.vstr "timeout", Val.vnull⟩⟩] ∧
    Val.vnull ≠ Val.vundef := by
  decide

/-- Claim C1 (corrected): when a registered call with a callback is still
pending and its timeout timer fires, the callback is invoked with
`{error: "timeout", result: null}` (null, not absent) and the pending entry
for that id is removed; when no timeout is specified, the scheduled timer
delay defaults to 30000 ms. -/
theorem timeout_semantics_thm (s : ClientState) (id : Nat) (p : Pending)
    (cb : Nat) (args : Args) (c : Nat) :
    (findReq s.requests (id : Int) = some p → p.callback = some cb →
      (timeout_request s id).invocations =
        s.invocations ++ [⟨p.serial, cb, ⟨Val.vstr "timeout", Val.vnull⟩⟩] ∧
      findReq (timeout_request s id).requests (id : Int) = none) ∧
    (args.callback = some c → args.timeout = none →
      (send_request s id args).timers =
        s.timers ++ [⟨s.nextTid, 30000, Task.timeoutTask id⟩]) := by
  constructor
  · intro hf hcb
    rw [timeout_request_eq s id p cb hf hcb]
    exact ⟨rfl, findReq_eraseReq s.requests (id : Int)⟩
  · intro hc ht
    exact send_request_default_timer s id args c hc ht

/-- Claim C1 witness: the corrected timeout semantics at a concrete state
with one pending call. -/
theorem timeout_semantics_witness :
    ((timeout_request sPend 0).invocations =
       sPend.invocations ++ [⟨0, 7, ⟨Val.vstr "timeout", Val.vnull⟩⟩] ∧
     findReq (timeout_request sPend 0).requests ((0 : Nat) : Int) = none) ∧
    (send_request sPend 5 cbArgs).timers =
      sPend.timers ++ [⟨sPend.nextTid, 30000, Task.timeoutTask 5⟩] := by
  have h1 := (timeout_semantics_thm sPend 0 ⟨0, some 7, some 0⟩ 7 cbArgs 7).1
  have h2 := (timeout_semantics_thm sPend 5 ⟨0, some 7, some 0⟩ 7 cbArgs 7).2
  exact ⟨h1 (by decide) rfl, h2 rfl rfl⟩

/-- Claim C2, counterexample: a call made without a callback still creates
a pending entry, and that entry survives the arrival of a response for its
id. -/
theorem pending_without_callback_cex :
    (findReq (run initState [Event.sockOpen, Event.callAsync noCbArgs]).requests
        ((0 : Nat) : Int)).isSome = true ∧
    (run initState [Event.sockOpen, Event.callAsync noCbArgs,
        Event.recv [Val.vint 1, Val.vint 0, Val.vnull, Val.vnull]]).requests =
      [(0, ⟨0, none, none⟩)] := by
  decide

/-- Claim C2 (corrected): `send_request` registers a pending entry even
when no callback was supplied (with empty callback and timer fields); a
response removes a pending entry exactly when the entry has a callback — a
callback-less entry survives the response unchanged — and `suspend` removes
every entry. -/
theorem pending_entry_lifecycle_thm (s : ClientState) (id : Nat) (args : Args)
    (i : Int) (p : Pending) (obj : List Val) (cb : Nat) :
    (args.callback = none → findReq s.requests (id : Int) = none →
      findReq (send_request s id args).requests (id : Int) =
        some ⟨s.nextSerial, none, none⟩) ∧
    (jsIndex obj 0 = Val.vint 1 → jsIndex obj 1 = Val.vint i →
      findReq s.requests i = some p → p.callback = none →
      recv_frame s obj = s) ∧
    (jsIndex obj 0 = Val.vint 1 → jsIndex obj 1 = Val.vint i →
      findReq s.requests i = some p → p.callback = some cb →
      findReq (recv_frame s obj).requests i = none) ∧
    (suspend s).requests = [] := by
  refine ⟨?_, ?_, ?_, rfl⟩
  · intro hc hfree
    unfold send_request
    rw [hc]
    dsimp only
    rw [if_neg (by norm_num : ¬ ((0 : Int) > 0))]
    exact findReq_setReq_of_free s.requests id _ hfree
  · intro h0 h1 hf hcb
    exact recv_frame_resp_no_callback s obj i p h0 h1 hf hcb
  · intro h0 h1 hf hcb
    rw [recv_frame_resp_callback s obj i p cb h0 h1 hf hcb]
    exact findReq_eraseReq s.requests i
/-- Claim C2 witness: the corrected entry lifecycle at concrete states —
registration without callback, response against a callback-less entry,
response against an entry with a callback, and suspension. -/
theorem pending_entry_lifecycle_witness :
    (findReq (send_request sPend 5 noCbArgs).requests ((5 : Nat) : Int) =
      some ⟨sPend.nextSerial, none, none⟩) ∧
    recv_frame sNoCb [Val.vint 1, Val.vint 0, Val.vnull, Val.vnull] = sNoCb ∧
    (findReq (recv_frame sPend
        [Val.vint 1, Val.vint 0, Val.vnull, Val.vnull]).requests 0 = none) ∧
    (suspend sPend).requests = [] := by
  refine ⟨?_, ?_, ?_, ?_⟩
  · exact (pending_entry_lifecycle_thm sPend 5 noCbArgs 0 ⟨0, none, none⟩ [] 0).1
      rfl (by decide)
  · exact (pending_entry_lifecycle_thm sNoCb 5 noCbArgs 0 ⟨0, none, none⟩
      [Val.vint 1, Val.vint 0, Val.vnull, Val.vnull] 0).2.1 rfl rfl (by decide) rfl
  · exact (pending_entry_lifecycle_thm sPend 5 noCbArgs 0 ⟨0, some 7, some 0⟩
      [Val.vint 1, Val.vint 0, Val.vnull, Val.vnull] 7).2.2.1 rfl rfl (by decide) rfl
  · exact (pending_entry_lifecycle_thm sPend 5 noCbArgs 0 ⟨0, none, none⟩ [] 0).2.2.2

end MsgpackRpc

namespace MsgpackRpc

/-- Claim C3, counterexample: a call submitted before the transport's first
open is not delivered at the open event (nothing has reached the transport
immediately after open), and if the client is suspended before the deferred
retry fires, the frame is never delivered at all — there is no buffer that
is flushed on open. -/
theorem no_outbound_buffer_cex :
    (run initState [Event.callAsync noCbArgs, Event.sockOpen]).sentFrames = [] ∧
    (run initState [Event.callAsync noCbArgs, Event.sockOpen, Event.suspendOp,
        Event.fire 0]).sentFrames = [] := by
  decide

/-- Claim C3 (corrected): outbound frames submitted before the transport
opens are not buffered: a `call_async` or `notify` issued while the state
is Connecting sends nothing and schedules a 10 ms retry of itself; a frame
reaches the transport only when such a retry runs while the state is
Connected, and a retry that runs while Disconnected or Disconnecting sends
nothing. -/
theorem pre_open_retry_thm (s s2 s3 : ClientState) (args : Args) :
    (s.stat = Stat.connecting →
      (call_async s args).sentFrames = s.sentFrames ∧
      (call_async s args).timers =
        s.timers ++ [⟨s.nextTid, 10, Task.retryCall args⟩] ∧
      (notify s args).sentFrames = s.sentFrames ∧
      (notify s args).timers =
        s.timers ++ [⟨s.nextTid, 10, Task.retryNotify args⟩]) ∧
    (s2.stat = Stat.connected →
      (notify s2 args).sentFrames =
        s2.sentFrames ++ [Frame.notifyF args.method args.params]) ∧
    ((s3.stat = Stat.disconnected ∨ s3.stat = Stat.disconnecting) →
      (notify s3 args).sentFrames = s3.sentFrames ∧
      (call_async s3 args).sentFrames = s3.sentFrames) := by
  refine ⟨?_, ?_, ?_⟩
  · intro h
    rw [call_async_defer s args (Or.inl h), notify_connecting s args h]
    exact ⟨rfl, rfl, rfl, rfl⟩
  · intro h
    rw [notify_connected s2 args h]
    rfl
  · intro h
    constructor
    · rw [notify_drop s3 args h]
    · refine call_async_sentFrames_of_ne s3 args ?_
      rcases h with h | h <;> rw [h] <;> intro hc <;> exact Stat.noConfusion hc

/-- Claim C3 witness: the corrected pre-open behaviour at concrete states
(the freshly constructed client is Connecting; `sPend` is Connected;
`sDisc` is Disconnected). -/
theorem pre_open_retry_witness :
    ((call_async initState noCbArgs).sentFrames = initState.sentFrames ∧
     (call_async initState noCbArgs).timers =
       initState.timers ++ [⟨initState.nextTid, 10, Task.retryCall noCbArgs⟩] ∧
     (notify initState noCbArgs).sentFrames = initState.sentFrames ∧
     (notify initState noCbArgs).timers =
       initState.timers ++ [⟨initState.nextTid, 10, Task.retryNotify noCbArgs⟩]) ∧
    (notify sPend noCbArgs).sentFrames =
      sPend.sentFrames ++ [Frame.notifyF noCbArgs.method noCbArgs.params] ∧
    ((notify sDisc noCbArgs).sentFrames = sDisc.sentFrames ∧
     (call_async sDisc noCbArgs).sentFrames = sDisc.sentFrames) := by
  have h := pre_open_retry_thm initState sPend sDisc noCbArgs
  exact ⟨h.1 rfl, h.2.1 (by decide), h.2.2 (Or.inl (by decide))⟩

/-- Claim C4, counterexample: a `call_async` issued while Disconnected with
a free id sends nothing, buffers nothing and schedules no retry, and a
`notify` issued while Disconnected leaves the state entirely unchanged —
the frame is silently discarded, not deferred. -/
theorem silent_discard_cex :
    (step sDisc (Event.callAsync noCbArgs)).sentFrames = [] ∧
    (step sDisc (Event.callAsync noCbArgs)).timers = [] ∧
    step sDisc (Event.notifyOp noCbArgs) = sDisc := by
  decide

/-- Claim C4 (corrected): frames are handed to the transport only while
the state is Connected (no step from a non-Connected state sends); while
Connecting, `call_async` and `notify` defer and retry; but a `call_async`
(with a free id) or `notify` issued while Disconnected or Disconnecting is
silently discarded rather than buffered or retried. -/
theorem transmit_only_connected_thm (s sd : ClientState) (e : Event)
    (args : Args) :
    (s.stat ≠ Stat.connected → (step s e).sentFrames = s.sentFrames) ∧
    (s.stat = Stat.connecting →
      (call_async s args).timers =
        s.timers ++ [⟨s.nextTid, 10, Task.retryCall args⟩] ∧
      (notify s args).timers =
        s.timers ++ [⟨s.nextTid, 10, Task.retryNotify args⟩]) ∧
    ((sd.stat = Stat.disconnected ∨ sd.stat = Stat.disconnecting) →
      notify sd args = sd ∧
      (findReq sd.requests (wrapId sd.msgid) = none →
        call_async sd args = { sd with msgid := wrapId sd.msgid })) := by
  refine ⟨step_sentFrames_of_ne s e, ?_, ?_⟩
  · intro h
    rw [call_async_defer s args (Or.inl h), notify_connecting s args h]
    exact ⟨rfl, rfl⟩
  · intro h
    exact ⟨notify_drop sd args h, fun hfree => call_async_drop sd args h hfree⟩

/-- Claim C4 witness: the corrected transmission policy at concrete states
(a Connecting client stepped by a notify, and the Disconnected `sDisc`). -/
theorem transmit_only_connected_witness :
    (step initState (Event.notifyOp noCbArgs)).sentFrames =
      initState.sentFrames ∧
    ((call_async initState noCbArgs).timers =
       initState.timers ++ [⟨initState.nextTid, 10, Task.retryCall noCbArgs⟩]) ∧
    notify sDisc noCbArgs = sDisc ∧
    call_async sDisc noCbArgs = { sDisc with msgid := wrapId sDisc.msgid } := by
  have h1 := transmit_only_connected_thm initState sDisc
    (Event.notifyOp noCbArgs) noCbArgs
  exact ⟨h1.1 (by decide), (h1.2.1 rfl).1,
    (h1.2.2 (Or.inl (by decide))).1, (h1.2.2 (Or.inl (by decide))).2 (by decide)⟩

end MsgpackRpc

namespace MsgpackRpc

/-- Claim C5 (confirmed): on every trace of client operations, the ghost
registration serials of the recorded callback invocations are
duplicate-free — each registered call's callback fires at most once,
whether by response delivery or by timeout — and a call still pending at
the moment of a `suspend` is never invoked on any continuation of the
trace (in particular not by a matching response arriving afterwards). -/
theorem callback_at_most_once_thm (es1 es2 : List Event) (n : Nat) :
    (invocSerials (run initState es1)).Nodup ∧
    (n ∈ pendingSerials (run initState es1) →
      n ∉ invocSerials
        (run (step (run initState es1) Event.suspendOp) es2)) := by
  have hinv := inv_run initState es1 inv_initState
  refine ⟨hinv.invNodup, fun hp => ?_⟩
  have hnotinv : n ∉ invocSerials (run initState es1) := by
    intro hmem
    exact hinv.disj n hmem hp
  have hd : Dead (step (run initState es1) Event.suspendOp) n := by
    refine ⟨hinv.pendLt n hp, ?_, hnotinv⟩
    intro hmem
    exact absurd hmem (List.not_mem_nil n)
  exact (dead_run _ es2 n hd).2.2

/-- Claim C5 witness: a concrete trace registering one call, suspending,
then feeding the matching response — the callback registration is pending
at suspension and is never invoked afterwards. -/
theorem callback_at_most_once_witness :
    0 ∈ pendingSerials (run initState [Event.sockOpen, Event.callAsync cbArgs]) ∧
    0 ∉ invocSerials
      (run (step (run initState [Event.sockOpen, Event.callAsync cbArgs])
          Event.suspendOp)
        [Event.recv [Val.vint 1, Val.vint 0, Val.vnull, Val.vnull]]) := by
  refine ⟨by decide, ?_⟩
  exact (callback_at_most_once_thm [Event.sockOpen, Event.callAsync cbArgs]
    [Event.recv [Val.vint 1, Val.vint 0, Val.vnull, Val.vnull]] 0).2 (by decide)

/-- Claim C6 (confirmed): id allocation wraps — when the counter holds
0xFFFFFFFF the next allocated id is 0 —, a `call_async` whose freshly
allocated id still has a pending entry sends nothing and defers itself
(registry and transport trace unchanged, a 10 ms retry is scheduled), and
any request frame newly handed to the transport by `call_async` carries an
id with no pending entry in the pre-state. -/
theorem id_wraparound_no_reuse_thm (s : ClientState) (args : Args)
    (id2 : Nat) (m : String) (v : Val) :
    (s.msgid = 0xffffffff → (call_async s args).msgid = 0) ∧
    ((findReq s.requests (wrapId s.msgid)).isSome →
      (call_async s args).sentFrames = s.sentFrames ∧
      (call_async s args).requests = s.requests ∧
      (call_async s args).timers =
        s.timers ++ [⟨s.nextTid, 10, Task.retryCall args⟩]) ∧
    (-1 ≤ s.msgid → Frame.request id2 m v ∈ (call_async s args).sentFrames →
      Frame.request id2 m v ∈ s.sentFrames ∨
        findReq s.requests (id2 : Int) = none) := by
  refine ⟨?_, ?_, ?_⟩
  · intro h
    rw [call_async_msgid, h]
    simp [wrapId]
  · intro h
    rw [call_async_defer s args (Or.inr h)]
    exact ⟨rfl, rfl, rfl⟩
  · intro hm hmem
    revert hmem
    unfold call_async
    dsimp only
    split
    · intro hmem
      exact Or.inl hmem
    · next hguard =>
      split
      · intro hmem
        rw [send_request_sentFrames] at hmem
        rcases List.mem_append.mp hmem with h1 | h1
        · exact Or.inl h1
        · simp only [List.mem_singleton, Frame.request.injEq] at h1
          right
          have hfree : findReq s.requests (wrapId s.msgid) = none := by
            simp only [Bool.or_eq_true, not_or] at hguard
            rcases hguard with ⟨_, h2⟩
            simpa [Option.not_isSome_iff_eq_none] using h2
          have hid : (id2 : Int) = wrapId s.msgid := by
            rw [h1.1]
            exact Int.toNat_of_nonneg (wrapId_nonneg s.msgid hm)
          rw [hid]
          exact hfree
      · intro hmem
        exact Or.inl hmem

/-- Claim C6 witness: wraparound at the concrete state `sWrap` (counter at
0xFFFFFFFF), deferral at `sColl` (next id 0 still pending), and the
no-reuse property of the request actually sent from `sPend`. -/
theorem id_wraparound_no_reuse_witness :
    (call_async sWrap noCbArgs).msgid = 0 ∧
    ((call_async sColl noCbArgs).sentFrames = sColl.sentFrames ∧
     (call_async sColl noCbArgs).requests = sColl.requests ∧
     (call_async sColl noCbArgs).timers =
       sColl.timers ++ [⟨sColl.nextTid, 10, Task.retryCall noCbArgs⟩]) ∧
    (Frame.request 1 "foo" (Val.vopaque 0) ∈ sPend.sentFrames ∨
      findReq sPend.requests ((1 : Nat) : Int) = none) := by
  refine ⟨?_, ?_, ?_⟩
  · exact (id_wraparound_no_reuse_thm sWrap noCbArgs 1 "foo"
      (Val.vopaque 0)).1 (by decide)
  · exact (id_wraparound_no_reuse_thm sColl noCbArgs 1 "foo"
      (Val.vopaque 0)).2.1 (by decide)
  · exact (id_wraparound_no_reuse_thm sPend cbArgs 1 "foo"
      (Val.vopaque 0)).2.2 (by decide) (by decide)

/-- Claim C7 (confirmed): `suspend` sets the state to Disconnecting,
removes every pending entry without invoking any callback, cancels the
timer of every pending entry, calls `sock.close()`, and resets the id
counter to its initial value -1, so that the first `call_async` after a
subsequent `resume` allocates id 0, the initial id, again. -/
theorem suspend_semantics_thm (s : ClientState) (args : Args) :
    (suspend s).stat = Stat.disconnecting ∧
    (suspend s).requests = [] ∧
    (suspend s).invocations = s.invocations ∧
    (suspend s).closeCalls = s.closeCalls + 1 ∧
    (suspend s).msgid = -1 ∧
    (∀ kv ∈ s.requests, ∀ t : Nat, kv.2.tid = some t →
      ∀ tm ∈ (suspend s).timers, tm.tid ≠ t) ∧
    (call_async ((resume (suspend s)).1) args).msgid = 0 := by
  refine ⟨rfl, rfl, rfl, rfl, rfl, ?_, ?_⟩
  · intro kv hkv t htid tm hmem
    have h := mem_foldl_clearTimeout s.requests s.timers tm hmem
    intro hc
    apply h.2 kv hkv
    rw [htid, hc]
  · rw [call_async_msgid, resume_msgid]
    show wrapId (-1 : Int) = 0
    decide

/-- Claim C7 witness: suspension of the concrete state `sPend` (one
pending call whose timer id is 0). -/
theorem suspend_semantics_witness :
    (suspend sPend).stat = Stat.disconnecting ∧
    (suspend sPend).requests = [] ∧
    (suspend sPend).invocations = sPend.invocations ∧
    (suspend sPend).closeCalls = sPend.closeCalls + 1 ∧
    (suspend sPend).msgid = -1 ∧
    (∀ tm ∈ (suspend sPend).timers, tm.tid ≠ 0) ∧
    (call_async ((resume (suspend sPend)).1) noCbArgs).msgid = 0 := by
  have h := suspend_semantics_thm sPend noCbArgs
  refine ⟨h.1, h.2.1, h.2.2.1, h.2.2.2.1, h.2.2.2.2.1, ?_, h.2.2.2.2.2.2⟩
  intro tm hmem
  exact h.2.2.2.2.2.1 (0, ⟨0, some 7, some 0⟩) (by decide) 0 rfl tm hmem

end MsgpackRpc

namespace MsgpackRpc

/-- Claim C8 (confirmed): the dispatcher discards without any effect —
state unchanged, so no callback invoked and the pending map untouched — a
decoded object whose tag is neither 1 nor 2, a response object whose id
field is not a number, and a response object whose numeric id has no
pending entry. -/
theorem dispatcher_discard_thm (s : ClientState) (obj : List Val) (i : Int) :
    ((jsIndex obj 0 ≠ Val.vint 1 ∧ jsIndex obj 0 ≠ Val.vint 2) →
      recv_frame s obj = s) ∧
    (jsIndex obj 0 = Val.vint 1 → (∀ k : Int, jsIndex obj 1 ≠ Val.vint k) →
      recv_frame s obj = s) ∧
    (jsIndex obj 0 = Val.vint 1 → jsIndex obj 1 = Val.vint i →
      findReq s.requests i = none → recv_frame s obj = s) := by
  refine ⟨?_, ?_, ?_⟩
  · intro h
    exact recv_frame_bad_tag s obj h.1 h.2
  · intro h0 h1
    exact recv_frame_nonnum_id s obj h0 h1
  · intro h0 h1 hf
    exact recv_frame_resp_none s obj i h0 h1 hf

/-- Claim C8 witness: the three discard cases at the concrete state
`sPend` — tag 3, a string id, and the unknown id 99. -/
theorem dispatcher_discard_witness :
    recv_frame sPend [Val.vint 3, Val.vnull] = sPend ∧
    recv_frame sPend [Val.vint 1, Val.vstr "x"] = sPend ∧
    recv_frame sPend [Val.vint 1, Val.vint 99, Val.vnull, Val.vnull] = sPend := by
  refine ⟨?_, ?_, ?_⟩
  · exact (dispatcher_discard_thm sPend [Val.vint 3, Val.vnull] 0).1
      (by constructor <;> decide)
  · exact (dispatcher_discard_thm sPend [Val.vint 1, Val.vstr "x"] 0).2.1
      rfl (fun k h => Val.noConfusion h)
  · exact (dispatcher_discard_thm sPend
      [Val.vint 1, Val.vint 99, Val.vnull, Val.vnull] 99).2.2 rfl rfl (by decide)

/-- Claim C9, counterexample: the public object carries no property named
`disconnect`; the alias of `suspend` the source installs (line 252) is
named `delete`. -/
theorem no_disconnect_property_cex :
    ("disconnect" ∈ thatProps) = False := by
  simp [thatProps]

/-- Claim C9 (corrected): the public alias of `suspend` is the operation
named `delete` (source line 252, `that.delete = that.suspend`), not
`disconnect`; its behaviour is identical to `suspend` on every state. -/
theorem delete_alias_thm :
    "delete" ∈ thatProps ∧ ∀ s : ClientState, that_delete s = suspend s := by
  refine ⟨by simp [thatProps], fun s => rfl⟩

/-- Claim C10 (confirmed): every invocation of `call_async` — deferred,
sending, or falling through — replaces `msgid` by its wrapped successor,
which always differs from the previous value; hence an immediately
rescheduled retry allocates a different id than the attempt before it. -/
theorem call_async_advances_msgid_thm (s : ClientState) (args args2 : Args) :
    (call_async s args).msgid = wrapId s.msgid ∧
    (call_async s args).msgid ≠ s.msgid ∧
    (call_async (call_async s args) args2).msgid ≠ (call_async s args).msgid := by
  refine ⟨call_async_msgid s args, ?_, ?_⟩
  · rw [call_async_msgid]
    exact wrapId_ne s.msgid
  · rw [call_async_msgid (call_async s args) args2]
    exact wrapId_ne _

end MsgpackRpc
